import Mathlib

/-!
Verification of the DVR server session/reconciliation engine
(`src/server/DVRServer.cpp`): device-list reconciliation
(`updateCamerasReply`), status-message derivation (`updateStatsReply`),
the disconnect handler (`disconnected`), the polling entry point
(`updateCameras`) and trust-on-first-use certificate pinning
(`isKnownCertificate` / `setKnownCertificate`).

The embedding works on the parsed view of a structurally well-formed XML
reply: a device-list reply is a flag for the transport error, a flag for
the presence of the top-level `devices` element, and the list of `device`
entries (each carrying its `id` attribute as an optional string — `none`
models a null attribute — and the success of `DVRCamera::parseXML` on its
remaining fields).  Signal emissions are modelled as an explicit event
trace.
-/

namespace DVRServer

/-- Observable signal emissions of the server object.  `cameraSetOnline`
records a `DVRCamera::setOnline` call on the camera with the given id. -/
inductive Event where
  | cameraSetOnline (id : Int) (online : Bool)
  | cameraAdded (id : Int)
  | cameraRemoved (id : Int)
  | devicesReady
  | statusAlertMessageChanged (msg : String)
deriving DecidableEq, Repr

/-- The mutable state of a `DVRServer`: the id list of `m_cameras` (in QList
order), the `devicesLoaded` flag, `m_statusAlertMessage`, whether
`m_refreshTimer` is active, and the transport's `api->isOnline()` view. -/
structure ServerState where
  cameras : List Int
  devicesLoaded : Bool
  statusAlertMessage : String
  timerActive : Bool
  online : Bool
deriving DecidableEq, Repr

/-- One `device` entry of a device-list reply: its `id` attribute
(`none` = attribute absent, i.e. `idv.isNull()`), and whether
`DVRCamera::parseXML` succeeds on the rest of the entry. -/
structure DeviceEntry where
  idAttr : Option String
  fieldsOk : Bool
deriving DecidableEq, Repr

/-- A device-list reply as seen by `updateCamerasReply`: transport error
flag, presence of the top-level `devices` element, and the `device`
entries in document order. -/
structure CamerasReply where
  transportError : Bool
  hasDevices : Bool
  entries : List DeviceEntry
deriving DecidableEq, Repr

/-- Decimal digit value of a character, `none` for a non-digit. -/
def digitVal (c : Char) : Option Nat :=
  if c.isDigit then some (c.toNat - 48) else none

/-- Accumulate decimal digits; fails on the first non-digit. -/
def parseDigits : List Char → Nat → Option Nat
  | [], acc => some acc
  | c :: cs, acc =>
    match digitVal c with
    | some d => parseDigits cs (acc * 10 + d)
    | none => none

/-- `QString::toUInt` on the id attribute: an optional leading `+`, then a
non-empty run of decimal digits, value below `2^32`; anything else fails. -/
def parseUIntStr (s : String) : Option Nat :=
  match s.data with
  | [] => none
  | c :: cs =>
    let ds := if c = '+' then cs else c :: cs
    match ds with
    | [] => none
    | _ :: _ =>
      match parseDigits ds 0 with
      | some n => if n < 2 ^ 32 then some n else none
      | none => none

/-- The C cast `(int)` applied to the parsed `uint` value. -/
def toInt32 (n : Nat) : Int :=
  if n < 2 ^ 31 then (n : Int) else (n : Int) - 2 ^ 32

/-- Result of the `device`-entry loop of `updateCamerasReply`: the observed
`idSet`, the camera id list, the emitted events, and whether
`QXmlStreamReader::raiseError` was called (which makes the stream `Invalid`
and ends the loop at once). -/
structure ProcessResult where
  idSet : List Int
  cams : List Int
  events : List Event
  err : Bool
deriving DecidableEq, Repr

/-- The `device`-entry loop of `updateCamerasReply` (source lines 171–207).
A null id attribute skips the entry; an unparseable id raises a stream
error, which terminates the loop; a valid id is inserted into the `idSet`,
the camera is marked online, and — if its fields parse — appended to the
camera list (with a `cameraAdded` emission) when not already present;
a field-parse failure raises a stream error, terminating the loop. -/
def processEntries : List DeviceEntry → List Int → List Int → List Event → ProcessResult
  | [], idSet, cams, evs => ⟨idSet, cams, evs, false⟩
  | e :: rest, idSet, cams, evs =>
    match e.idAttr with
    | none => processEntries rest idSet cams evs
    | some str =>
      match parseUIntStr str with
      | none => ⟨idSet, cams, evs, true⟩
      | some n =>
        let d := toInt32 n
        let idSet' := if d ∈ idSet then idSet else d :: idSet
        let evs' := evs ++ [Event.cameraSetOnline d true]
        if e.fieldsOk then
          if d ∈ cams then
            processEntries rest idSet' cams evs'
          else
            processEntries rest idSet' (cams ++ [d]) (evs' ++ [Event.cameraAdded d])
        else
          ⟨idSet', cams, evs', true⟩

/-- The removal loop of `updateCamerasReply` (source lines 223–234): every
camera whose id is not in the observed `idSet` is removed from the list and
a `cameraRemoved` event is emitted for it, in list order. -/
def removePhase : List Int → List Int → List Int × List Event
  | [], _ => ([], [])
  | c :: rest, idSet =>
    let r := removePhase rest idSet
    if c ∈ idSet then (c :: r.1, r.2)
    else (r.1, Event.cameraRemoved c :: r.2)

/-- `DVRServer::updateCamerasReply` (source lines 141–241) on the parsed
view of a reply.  A transport error or a missing `devices` element leaves
the state unchanged.  A stream error raised while processing entries keeps
the additions made so far but skips the removal phase and the
`devicesReady` check; otherwise stale cameras are removed and
`devicesReady` is emitted when `devicesLoaded` is still false or the camera
list went from empty to non-empty. -/
def updateCamerasReply (s : ServerState) (r : CamerasReply) : ServerState × List Event :=
  if r.transportError then (s, [])
  else if !r.hasDevices then (s, [])
  else
    let wasEmpty := s.cameras.isEmpty
    let p := processEntries r.entries [] s.cameras []
    if p.err then ({ s with cameras := p.cams }, p.events)
    else
      let rm := removePhase p.cams p.idSet
      if !s.devicesLoaded || (wasEmpty && !rm.1.isEmpty) then
        ({ s with cameras := rm.1, devicesLoaded := true },
          p.events ++ rm.2 ++ [Event.devicesReady])
      else
        ({ s with cameras := rm.1 }, p.events ++ rm.2)

/-- An entry passes the loop without raising a stream error iff its id
attribute is null, or the id parses and its fields parse. -/
def entryOk (e : DeviceEntry) : Bool :=
  match e.idAttr with
  | none => true
  | some str => (parseUIntStr str).isSome && e.fieldsOk

/-- The device id an entry contributes to the observed id set (after the
`(int)` cast), when its id attribute is present and parses. -/
def entryId (e : DeviceEntry) : Option Int :=
  match e.idAttr with
  | none => none
  | some str => (parseUIntStr str).map toInt32

/-- The device ids observed in a reply, in document order. -/
def replyObservedIds (r : CamerasReply) : List Int :=
  r.entries.filterMap entryId

/-- A reply reconciles successfully: no transport error, a `devices`
element is present, and no entry raises a stream error. -/
def reconcileSuccess (r : CamerasReply) : Bool :=
  !r.transportError && r.hasDevices && r.entries.all entryOk

/-- Events that change the camera set. -/
def isAddOrRemove : Event → Bool
  | Event.cameraAdded _ => true
  | Event.cameraRemoved _ => true
  | _ => false

/-- The event trace of the camera-clearing loop of `DVRServer::disconnected`
(source lines 300–306): each camera is set offline and then removed, in
list order. -/
def disconnectEvents : List Int → List Event
  | [] => []
  | c :: rest => Event.cameraSetOnline c false :: Event.cameraRemoved c :: disconnectEvents rest

/-- `DVRServer::disconnected` (source lines 298–310): every camera is set
offline, removed and notified; `devicesLoaded` is reset; the status alert
is cleared and `statusAlertMessageChanged` is emitted unconditionally.
The refresh timer and the transport's online flag are not touched. -/
def disconnectedHandler (s : ServerState) : ServerState × List Event :=
  ({ s with cameras := [], devicesLoaded := false, statusAlertMessage := "" },
    disconnectEvents s.cameras ++ [Event.statusAlertMessageChanged ""])

/-- `DVRServer::updateCameras` (source lines 122–139), restricted to its
effect on the refresh timer: offline stops the timer and returns; online
starts it when it is not already running (the two poll requests it then
issues are handled by the reply models). -/
def updateCameras (s : ServerState) : ServerState :=
  if !s.online then { s with timerActive := false }
  else if !s.timerActive then { s with timerActive := true }
  else s

/-- A child element of the top-level `stats` element: a `message` element
with its text, a `bc-server-running` element with its text, or any other
element (ignored by the loop). -/
inductive StatsChild where
  | message (text : String)
  | serverRunning (text : String)
  | other
deriving DecidableEq, Repr

/-- A stats reply as seen by `updateStatsReply`: the transport error string
when the request failed, else the children of the top-level `stats` element
in document order (`none` = no `stats` element in the document). -/
structure StatsReply where
  transportError : Option String
  body : Option (List StatsChild)
deriving DecidableEq, Repr

/-- Strip leading and trailing whitespace from a character list. -/
def trimChars (l : List Char) : List Char :=
  ((l.dropWhile Char.isWhitespace).reverse.dropWhile Char.isWhitespace).reverse

/-- `QString::trimmed`: the string with leading and trailing whitespace
removed. -/
def qTrimmed (s : String) : String := ⟨trimChars s.data⟩

/-- The child loop of `updateStatsReply` (source lines 267–284), folding
the current message and the `hadMessageElement` flag over the children: a
`message` element sets the flag and, when its text is non-empty, the
message; a `bc-server-running` element whose trimmed text is `"down"` sets
the message to `"Server process stopped"`. -/
def processStatsChildren : List StatsChild → String → Bool → String × Bool
  | [], msg, had => (msg, had)
  | StatsChild.message t :: rest, msg, _had =>
    processStatsChildren rest (if t.isEmpty then msg else t) true
  | StatsChild.serverRunning t :: rest, msg, had =>
    processStatsChildren rest (if qTrimmed t = "down" then "Server process stopped" else msg) had
  | StatsChild.other :: rest, msg, had => processStatsChildren rest msg had

/-- The message derived by `DVRServer::updateStatsReply` (source lines
251–290): a transport error yields `"Status request error: <error>"`;
otherwise the children are folded and, when no `message` element was seen
at all, the message becomes `"Status request error: invalid server
response"`. -/
def deriveStatsMessage (r : StatsReply) : String :=
  match r.transportError with
  | some e => "Status request error: " ++ e
  | none =>
    let p :=
      match r.body with
      | some children => processStatsChildren children "" false
      | none => ("", false)
    if p.2 then p.1 else "Status request error: invalid server response"

/-- `DVRServer::updateStatsReply` (source lines 243–296): the derived
message replaces the stored alert, and `statusAlertMessageChanged` is
emitted, only when it differs from the stored alert. -/
def updateStatsReply (s : ServerState) (r : StatsReply) : ServerState × List Event :=
  let message := deriveStatsMessage r
  if message ≠ s.statusAlertMessage then
    ({ s with statusAlertMessage := message }, [Event.statusAlertMessageChanged message])
  else (s, [])

/-- The per-endpoint pinning state: the stored `sslDigest` setting as a
byte array (`[]` = no digest stored, `QByteArray::isEmpty`). -/
structure PinState where
  sslDigest : List Nat
deriving DecidableEq, Repr

/-- The relevant view of a `QSslCertificate`: its SHA-1 digest
`certificate.digest(QCryptographicHash::Sha1)` (20 bytes, never empty). -/
structure Certificate where
  sha1Digest : List Nat
deriving DecidableEq, Repr

/-- `DVRServer::setKnownCertificate` (source lines 327–330): overwrite the
stored digest with the certificate's SHA-1 digest. -/
def setKnownCertificate (s : PinState) (c : Certificate) : PinState :=
  { s with sslDigest := c.sha1Digest }

/-- `DVRServer::isKnownCertificate` (source lines 312–325): with no stored
digest, pin the presented certificate's digest and accept; otherwise
accept iff the presented digest equals the stored one byte for byte. -/
def isKnownCertificate (s : PinState) (c : Certificate) : Bool × PinState :=
  if s.sslDigest.isEmpty then (true, setKnownCertificate s c)
  else (decide (c.sha1Digest = s.sslDigest), s)

/-! ### Helper lemmas -/

theorem mem_insertIf {d i : Int} {l : List Int} :
    i ∈ (if d ∈ l then l else d :: l) ↔ i = d ∨ i ∈ l := by
  by_cases h : d ∈ l
  · rw [if_pos h]
    constructor
    · exact Or.inr
    · rintro (rfl | hi)
      · exact h
      · exact hi
  · rw [if_neg h, List.mem_cons]

theorem removePhase_fst (cams idSet : List Int) :
    (removePhase cams idSet).1 = cams.filter (fun c => decide (c ∈ idSet)) := by
  induction cams with
  | nil => rfl
  | cons c rest ih =>
    by_cases h : c ∈ idSet <;> simp [removePhase, h, ih]

theorem removePhase_snd (cams idSet : List Int) :
    (removePhase cams idSet).2 =
      (cams.filter (fun c => decide (c ∉ idSet))).map Event.cameraRemoved := by
  induction cams with
  | nil => rfl
  | cons c rest ih =>
    by_cases h : c ∈ idSet <;> simp [removePhase, h, ih]

theorem processEntries_err (es : List DeviceEntry) (idSet cams : List Int)
    (evs : List Event) :
    (processEntries es idSet cams evs).err = !es.all entryOk := by
  induction es generalizing idSet cams evs with
  | nil => simp [processEntries]
  | cons e rest ih =>
    cases he : e.idAttr with
    | none => simp [processEntries, he, entryOk, ih]
    | some str =>
      cases hp : parseUIntStr str with
      | none => simp [processEntries, he, entryOk, hp]
      | some n =>
        cases hf : e.fieldsOk with
        | false => simp [processEntries, he, entryOk, hp, hf]
        | true =>
          simp only [processEntries, he, hp, hf, if_true]
          split <;> simp [ih, entryOk, he, hp, hf]

theorem processEntries_mem (es : List DeviceEntry) (idSet cams : List Int)
    (evs : List Event) (h : es.all entryOk = true) (i : Int) :
    (i ∈ (processEntries es idSet cams evs).idSet ↔
        i ∈ idSet ∨ i ∈ es.filterMap entryId) ∧
    (i ∈ (processEntries es idSet cams evs).cams ↔
        i ∈ cams ∨ i ∈ es.filterMap entryId) := by
  induction es generalizing idSet cams evs with
  | nil => simp [processEntries]
  | cons e rest ih =>
    simp only [List.all_cons, Bool.and_eq_true] at h
    obtain ⟨h1, h2⟩ := h
    cases he : e.idAttr with
    | none =>
      have hid : entryId e = none := by simp [entryId, he]
      rw [List.filterMap_cons_none hid]
      simp only [processEntries, he]
      exact ih idSet cams evs h2
    | some str =>
      rw [entryOk, he] at h1
      obtain ⟨hsome, hf⟩ := Bool.and_eq_true _ _ |>.mp h1
      obtain ⟨n, hp⟩ := Option.isSome_iff_exists.mp hsome
      have hid : entryId e = some (toInt32 n) := by simp [entryId, he, hp]
      rw [List.filterMap_cons_some hid]
      simp only [processEntries, he, hp, hf, if_true]
      by_cases hc : toInt32 n ∈ cams
      · rw [if_pos hc]
        have := ih (if toInt32 n ∈ idSet then idSet else toInt32 n :: idSet) cams
          (evs ++ [Event.cameraSetOnline (toInt32 n) true]) h2
        constructor
        · rw [this.1, mem_insertIf, List.mem_cons]
          tauto
        · rw [this.2, List.mem_cons]
          constructor
          · rintro (hi | hi)
            · exact Or.inl hi
            · exact Or.inr (Or.inr hi)
          · rintro (hi | rfl | hi)
            · exact Or.inl hi
            · exact Or.inl hc
            · exact Or.inr hi
      · rw [if_neg hc]
        have := ih (if toInt32 n ∈ idSet then idSet else toInt32 n :: idSet)
          (cams ++ [toInt32 n])
          (evs ++ [Event.cameraSetOnline (toInt32 n) true] ++ [Event.cameraAdded (toInt32 n)]) h2
        constructor
        · rw [this.1, mem_insertIf, List.mem_cons]
          tauto
        · rw [this.2, List.mem_append, List.mem_singleton, List.mem_cons]
          tauto

theorem processEntries_events_mem (es : List DeviceEntry) :
    ∀ (idSet cams : List Int) (evs : List Event) (ev : Event),
    ev ∈ (processEntries es idSet cams evs).events →
    ev ∈ evs ∨ (∃ d, ev = Event.cameraSetOnline d true) ∨ ∃ d, ev = Event.cameraAdded d := by
  induction es with
  | nil =>
    intro idSet cams evs ev hev
    exact Or.inl hev
  | cons e rest ih =>
    intro idSet cams evs ev hev
    cases he : e.idAttr with
    | none =>
      simp only [processEntries, he] at hev
      exact ih _ _ _ _ hev
    | some str =>
      cases hp : parseUIntStr str with
      | none =>
        simp only [processEntries, he, hp] at hev
        exact Or.inl hev
      | some n =>
        cases hf : e.fieldsOk with
        | false =>
          simp only [processEntries, he, hp, hf, Bool.false_eq_true, if_false] at hev
          rcases List.mem_append.mp hev with h | h
          · exact Or.inl h
          · exact Or.inr (Or.inl ⟨toInt32 n, List.mem_singleton.mp h⟩)
        | true =>
          simp only [processEntries, he, hp, hf, if_true] at hev
          by_cases hc : toInt32 n ∈ cams
          · rw [if_pos hc] at hev
            rcases ih _ _ _ _ hev with h | h
            · rcases List.mem_append.mp h with h' | h'
              · exact Or.inl h'
              · exact Or.inr (Or.inl ⟨toInt32 n, List.mem_singleton.mp h'⟩)
            · exact Or.inr h
          · rw [if_neg hc] at hev
            rcases ih _ _ _ _ hev with h | h
            · rcases List.mem_append.mp h with h' | h'
              · rcases List.mem_append.mp h' with h'' | h''
                · exact Or.inl h''
                · exact Or.inr (Or.inl ⟨toInt32 n, List.mem_singleton.mp h''⟩)
              · exact Or.inr (Or.inr ⟨toInt32 n, List.mem_singleton.mp h'⟩)
            · exact Or.inr h

theorem processEntries_no_new (es : List DeviceEntry) :
    ∀ (idSet cams : List Int) (evs : List Event), es.all entryOk = true →
    (∀ i ∈ es.filterMap entryId, i ∈ cams) →
    (processEntries es idSet cams evs).cams = cams ∧
    (processEntries es idSet cams evs).events =
      evs ++ (es.filterMap entryId).map (fun d => Event.cameraSetOnline d true) := by
  induction es with
  | nil =>
    intro idSet cams evs _ _
    simp [processEntries]
  | cons e rest ih =>
    intro idSet cams evs h hsub
    simp only [List.all_cons, Bool.and_eq_true] at h
    obtain ⟨h1, h2⟩ := h
    cases he : e.idAttr with
    | none =>
      have hid : entryId e = none := by simp [entryId, he]
      rw [List.filterMap_cons_none hid]
      simp only [processEntries, he]
      refine ih _ _ _ h2 ?_
      intro i hi
      exact hsub i (by rw [List.filterMap_cons_none hid]; exact hi)
    | some str =>
      rw [entryOk, he] at h1
      obtain ⟨hsome, hf⟩ := Bool.and_eq_true _ _ |>.mp h1
      obtain ⟨n, hp⟩ := Option.isSome_iff_exists.mp hsome
      have hid : entryId e = some (toInt32 n) := by simp [entryId, he, hp]
      rw [List.filterMap_cons_some hid]
      have hc : toInt32 n ∈ cams := by
        refine hsub _ ?_
        rw [List.filterMap_cons_some hid]
        exact List.mem_cons_self _ _
      simp only [processEntries, he, hp, hf, if_true, if_pos hc]
      have hsub' : ∀ i ∈ rest.filterMap entryId, i ∈ cams := by
        intro i hi
        refine hsub i ?_
        rw [List.filterMap_cons_some hid]
        exact List.mem_cons_of_mem _ hi
      obtain ⟨hcams, hevs⟩ := ih _ _ (evs ++ [Event.cameraSetOnline (toInt32 n) true]) h2 hsub'
      refine ⟨hcams, ?_⟩
      rw [hevs, List.map_cons, List.append_assoc]
      rfl

theorem processEntries_cams_struct (es : List DeviceEntry) :
    ∀ (idSet cams : List Int) (evs : List Event),
    ∃ t, (processEntries es idSet cams evs).cams = cams ++ t ∧
      ∀ i ∈ t, i ∈ es.filterMap entryId := by
  induction es with
  | nil =>
    intro idSet cams evs
    exact ⟨[], by simp [processEntries], by simp⟩
  | cons e rest ih =>
    intro idSet cams evs
    cases he : e.idAttr with
    | none =>
      simp only [processEntries, he]
      obtain ⟨t, ht, hmem⟩ := ih idSet cams evs
      refine ⟨t, ht, fun i hi => ?_⟩
      have hid : entryId e = none := by simp [entryId, he]
      rw [List.filterMap_cons_none hid]
      exact hmem i hi
    | some str =>
      cases hp : parseUIntStr str with
      | none =>
        simp only [processEntries, he, hp]
        exact ⟨[], by simp, by simp⟩
      | some n =>
        have hid : entryId e = some (toInt32 n) := by simp [entryId, he, hp]
        cases hf : e.fieldsOk with
        | false =>
          simp only [processEntries, he, hp, hf, Bool.false_eq_true, if_false]
          exact ⟨[], by simp, by simp⟩
        | true =>
          simp only [processEntries, he, hp, hf, if_true]
          by_cases hc : toInt32 n ∈ cams
          · rw [if_pos hc]
            obtain ⟨t, ht, hmem⟩ := ih _ _ _
            refine ⟨t, ht, fun i hi => ?_⟩
            rw [List.filterMap_cons_some hid]
            exact List.mem_cons_of_mem _ (hmem i hi)
          · rw [if_neg hc]
            obtain ⟨t, ht, hmem⟩ := ih (if toInt32 n ∈ idSet then idSet else toInt32 n :: idSet)
              (cams ++ [toInt32 n])
              (evs ++ [Event.cameraSetOnline (toInt32 n) true] ++ [Event.cameraAdded (toInt32 n)])
            refine ⟨toInt32 n :: t, by rw [ht, List.append_assoc]; rfl, fun i hi => ?_⟩
            rw [List.filterMap_cons_some hid]
            rcases List.mem_cons.mp hi with rfl | hi'
            · exact List.mem_cons_self _ _
            · exact List.mem_cons_of_mem _ (hmem i hi')

/-- Unfolds `reconcileSuccess` into its three component facts. -/
theorem reconcileSuccess_parts {r : CamerasReply} (h : reconcileSuccess r = true) :
    r.transportError = false ∧ r.hasDevices = true ∧ r.entries.all entryOk = true := by
  rw [reconcileSuccess, Bool.and_eq_true, Bool.and_eq_true, Bool.not_eq_true'] at h
  exact ⟨h.1.1, h.1.2, h.2⟩

/-- On a successful reply, `updateCamerasReply` runs the removal phase and
the `devicesReady` check. -/
theorem updateCamerasReply_success (s : ServerState) (r : CamerasReply)
    (h : reconcileSuccess r = true) :
    updateCamerasReply s r =
      (let p := processEntries r.entries [] s.cameras []
       let rm := removePhase p.cams p.idSet
       if !s.devicesLoaded || (s.cameras.isEmpty && !rm.1.isEmpty) then
         ({ s with cameras := rm.1, devicesLoaded := true },
           p.events ++ rm.2 ++ [Event.devicesReady])
       else
         ({ s with cameras := rm.1 }, p.events ++ rm.2)) := by
  obtain ⟨h1, h2, h3⟩ := reconcileSuccess_parts h
  have herr : (processEntries r.entries [] s.cameras []).err = false := by
    rw [processEntries_err, h3]
    rfl
  rw [updateCamerasReply, if_neg (by simp [h1]), if_neg (by simp [h2])]
  simp only [herr, Bool.false_eq_true, if_false]

theorem updateCamerasReply_success_cameras (s : ServerState) (r : CamerasReply)
    (h : reconcileSuccess r = true) :
    (updateCamerasReply s r).1.cameras =
      (removePhase (processEntries r.entries [] s.cameras []).cams
        (processEntries r.entries [] s.cameras []).idSet).1 := by
  rw [updateCamerasReply_success s r h]
  dsimp only
  split <;> rfl

theorem updateCamerasReply_success_devicesLoaded (s : ServerState) (r : CamerasReply)
    (h : reconcileSuccess r = true) :
    (updateCamerasReply s r).1.devicesLoaded = true := by
  rw [updateCamerasReply_success s r h]
  dsimp only
  split
  · rfl
  · next hcond =>
    simp only [Bool.or_eq_true, Bool.and_eq_true, Bool.not_eq_true'] at hcond
    push_neg at hcond
    simp [hcond.1]

theorem updateCamerasReply_success_events (s : ServerState) (r : CamerasReply)
    (h : reconcileSuccess r = true) :
    (updateCamerasReply s r).2 =
      (processEntries r.entries [] s.cameras []).events ++
        (removePhase (processEntries r.entries [] s.cameras []).cams
          (processEntries r.entries [] s.cameras []).idSet).2 ++
        (if !s.devicesLoaded || (s.cameras.isEmpty &&
            !(removePhase (processEntries r.entries [] s.cameras []).cams
                (processEntries r.entries [] s.cameras []).idSet).1.isEmpty)
          then [Event.devicesReady] else []) := by
  rw [updateCamerasReply_success s r h]
  dsimp only
  split
  · rfl
  · exact (List.append_nil _).symm

theorem mem_cameras_after_success (s : ServerState) (r : CamerasReply)
    (h : reconcileSuccess r = true) (i : Int) :
    i ∈ (updateCamerasReply s r).1.cameras ↔ i ∈ replyObservedIds r := by
  obtain ⟨_, _, h3⟩ := reconcileSuccess_parts h
  rw [updateCamerasReply_success_cameras s r h, removePhase_fst, List.mem_filter,
    decide_eq_true_eq]
  have hmem := processEntries_mem r.entries [] s.cameras [] h3 i
  rw [replyObservedIds, hmem.1, hmem.2]
  simp only [List.not_mem_nil, false_or]
  tauto

theorem filter_addRemove_map_setOnline (l : List Int) :
    (l.map (fun d => Event.cameraSetOnline d true)).filter isAddOrRemove = [] := by
  induction l with
  | nil => rfl
  | cons a t ih => simp [isAddOrRemove, ih]

/-! ### Claims -/

/-- C1: for every successfully processed device-list reply (no transport
error, a `devices` container present, no parse error raised), the set of
ids of cameras in the camera set after reconciliation is exactly the set
of device ids observed in the reply. -/
theorem camera_ids_match_observed (s : ServerState) (r : CamerasReply)
    (h : reconcileSuccess r = true) (i : Int) :
    i ∈ (updateCamerasReply s r).1.cameras ↔ i ∈ replyObservedIds r :=
  mem_cameras_after_success s r h i

/-- Witness for C1 at a concrete state and reply. -/
theorem camera_ids_match_observed_witness :
    (1 : Int) ∈ (updateCamerasReply ⟨[], false, "", false, true⟩
        ⟨false, true, [⟨some "1", true⟩, ⟨some "2", true⟩]⟩).1.cameras ↔
      (1 : Int) ∈ replyObservedIds ⟨false, true, [⟨some "1", true⟩, ⟨some "2", true⟩]⟩ :=
  camera_ids_match_observed ⟨[], false, "", false, true⟩
    ⟨false, true, [⟨some "1", true⟩, ⟨some "2", true⟩]⟩ (by decide) 1

/-- C2: reconciling an identical successfully-processed device-list reply a
second time emits no `cameraAdded` and no `cameraRemoved` event, and leaves
the camera set unchanged. -/
theorem reconcile_idempotent (s : ServerState) (r : CamerasReply)
    (h : reconcileSuccess r = true) :
    (updateCamerasReply (updateCamerasReply s r).1 r).2.filter isAddOrRemove = [] ∧
    (updateCamerasReply (updateCamerasReply s r).1 r).1.cameras =
      (updateCamerasReply s r).1.cameras := by
  obtain ⟨_, _, h3⟩ := reconcileSuccess_parts h
  set s1 := (updateCamerasReply s r).1 with hs1
  have hsub : ∀ i ∈ r.entries.filterMap entryId, i ∈ s1.cameras := fun i hi =>
    (mem_cameras_after_success s r h i).mpr hi
  obtain ⟨hcams2, hevs2⟩ := processEntries_no_new r.entries [] s1.cameras [] h3 hsub
  have hid2 : ∀ c ∈ s1.cameras, c ∈ (processEntries r.entries [] s1.cameras []).idSet := by
    intro c hc
    have hobs : c ∈ replyObservedIds r := (mem_cameras_after_success s r h c).mp hc
    exact ((processEntries_mem r.entries [] s1.cameras [] h3 c).1).mpr (Or.inr hobs)
  have hrm1 : (removePhase (processEntries r.entries [] s1.cameras []).cams
      (processEntries r.entries [] s1.cameras []).idSet).1 = s1.cameras := by
    rw [removePhase_fst, hcams2]
    exact List.filter_eq_self.mpr fun a ha => decide_eq_true (hid2 a ha)
  have hrm2 : (removePhase (processEntries r.entries [] s1.cameras []).cams
      (processEntries r.entries [] s1.cameras []).idSet).2 = [] := by
    rw [removePhase_snd, hcams2]
    have hnil : s1.cameras.filter
        (fun c => decide (c ∉ (processEntries r.entries [] s1.cameras []).idSet)) = [] := by
      refine List.filter_eq_nil_iff.mpr fun a ha => ?_
      simp only [decide_eq_true_eq, Decidable.not_not]
      exact hid2 a ha
    rw [hnil]
    rfl
  have hload : s1.devicesLoaded = true := updateCamerasReply_success_devicesLoaded s r h
  have hcond : (!s1.devicesLoaded ||
      (s1.cameras.isEmpty &&
        !(removePhase (processEntries r.entries [] s1.cameras []).cams
            (processEntries r.entries [] s1.cameras []).idSet).1.isEmpty)) = false := by
    rw [hload, hrm1]
    cases s1.cameras.isEmpty <;> rfl
  constructor
  · rw [updateCamerasReply_success_events s1 r h, hevs2, hrm2, hcond]
    simp only [Bool.false_eq_true, if_false, List.append_nil, List.nil_append,
      List.filter_append, filter_addRemove_map_setOnline]
  · rw [updateCamerasReply_success_cameras s1 r h, hrm1]

/-- Witness for C2 at a concrete state and reply. -/
theorem reconcile_idempotent_witness :
    (updateCamerasReply (updateCamerasReply ⟨[], false, "", false, true⟩
        ⟨false, true, [⟨some "1", true⟩, ⟨some "2", true⟩]⟩).1
        ⟨false, true, [⟨some "1", true⟩, ⟨some "2", true⟩]⟩).2.filter isAddOrRemove = [] ∧
    (updateCamerasReply (updateCamerasReply ⟨[], false, "", false, true⟩
        ⟨false, true, [⟨some "1", true⟩, ⟨some "2", true⟩]⟩).1
        ⟨false, true, [⟨some "1", true⟩, ⟨some "2", true⟩]⟩).1.cameras =
      (updateCamerasReply ⟨[], false, "", false, true⟩
        ⟨false, true, [⟨some "1", true⟩, ⟨some "2", true⟩]⟩).1.cameras :=
  reconcile_idempotent ⟨[], false, "", false, true⟩
    ⟨false, true, [⟨some "1", true⟩, ⟨some "2", true⟩]⟩ (by decide)

/-- C3: trust-on-first-use pinning.  With no digest pinned,
`isKnownCertificate` stores the presented certificate's digest and accepts;
from then on any certificate is accepted iff its digest equals the stored
one — so a different certificate is rejected while the first one keeps
being accepted.  (SHA-1 digests are never empty, whence the hypothesis on
`certA`.) -/
theorem tofu_pinning (s : PinState) (certA : Certificate)
    (hs : s.sslDigest = []) (hA : certA.sha1Digest ≠ []) :
    (isKnownCertificate s certA).1 = true ∧
    (isKnownCertificate s certA).2.sslDigest = certA.sha1Digest ∧
    ∀ cert : Certificate,
      ((isKnownCertificate (isKnownCertificate s certA).2 cert).1 = true ↔
        cert.sha1Digest = certA.sha1Digest) := by
  have hempty : s.sslDigest.isEmpty = true := by rw [hs]; rfl
  have hfirst : isKnownCertificate s certA = (true, setKnownCertificate s certA) := by
    rw [isKnownCertificate, if_pos hempty]
  rw [hfirst]
  refine ⟨rfl, rfl, fun cert => ?_⟩
  have hne : ¬(setKnownCertificate s certA).sslDigest.isEmpty = true := by
    intro hcontra
    exact hA (List.isEmpty_iff.mp hcontra)
  rw [isKnownCertificate, if_neg hne]
  simp only [setKnownCertificate, decide_eq_true_eq]

/-- Witness for C3: pin on `certA` with digest `[1]`, then a certificate
with digest `[2]` is rejected. -/
theorem tofu_pinning_witness :
    (isKnownCertificate ⟨[]⟩ ⟨[1]⟩).1 = true ∧
    ((isKnownCertificate (isKnownCertificate ⟨[]⟩ ⟨[1]⟩).2 ⟨[2]⟩).1 = true ↔
      ([2] : List Nat) = [1]) :=
  ⟨(tofu_pinning ⟨[]⟩ ⟨[1]⟩ rfl (by decide)).1,
    (tofu_pinning ⟨[]⟩ ⟨[1]⟩ rfl (by decide)).2.2 ⟨[2]⟩⟩

theorem disconnectEvents_mem {c : Int} {l : List Int} (h : c ∈ l) :
    Event.cameraSetOnline c false ∈ disconnectEvents l ∧
    Event.cameraRemoved c ∈ disconnectEvents l := by
  induction l with
  | nil => cases h
  | cons a t ih =>
    rcases List.mem_cons.mp h with rfl | h'
    · exact ⟨List.mem_cons_self _ _, List.mem_cons_of_mem _ (List.mem_cons_self _ _)⟩
    · obtain ⟨ha, hb⟩ := ih h'
      exact ⟨List.mem_cons_of_mem _ (List.mem_cons_of_mem _ ha),
        List.mem_cons_of_mem _ (List.mem_cons_of_mem _ hb)⟩

/-- C9: from a state with a non-empty camera set and a non-empty alert
message, the disconnect handler empties the camera set (each former camera
is set offline and receives a `cameraRemoved` notification), resets the
alert message to the empty string, and resets the devices-loaded flag. -/
theorem disconnect_clears_state (s : ServerState)
    (_hcam : s.cameras ≠ []) (_halert : s.statusAlertMessage ≠ "") :
    (disconnectedHandler s).1.cameras = [] ∧
    (disconnectedHandler s).1.statusAlertMessage = "" ∧
    (disconnectedHandler s).1.devicesLoaded = false ∧
    ∀ c ∈ s.cameras, Event.cameraSetOnline c false ∈ (disconnectedHandler s).2 ∧
      Event.cameraRemoved c ∈ (disconnectedHandler s).2 := by
  refine ⟨rfl, rfl, rfl, fun c hc => ?_⟩
  obtain ⟨ha, hb⟩ := disconnectEvents_mem hc
  exact ⟨List.mem_append_left _ ha, List.mem_append_left _ hb⟩

/-- Witness for C9 at a concrete state with one camera and a set alert. -/
theorem disconnect_clears_state_witness :
    (disconnectedHandler ⟨[5], true, "alert", true, true⟩).1.cameras = [] ∧
    (disconnectedHandler ⟨[5], true, "alert", true, true⟩).1.statusAlertMessage = "" ∧
    (disconnectedHandler ⟨[5], true, "alert", true, true⟩).1.devicesLoaded = false ∧
    (Event.cameraSetOnline 5 false ∈ (disconnectedHandler ⟨[5], true, "alert", true, true⟩).2 ∧
      Event.cameraRemoved 5 ∈ (disconnectedHandler ⟨[5], true, "alert", true, true⟩).2) := by
  have h := disconnect_clears_state ⟨[5], true, "alert", true, true⟩ (by decide) (by decide)
  exact ⟨h.1, h.2.1, h.2.2.1, h.2.2.2 5 (by decide)⟩

/-- C10: `devicesReady` is emitted exactly when the reply reconciles fully
and successfully and either the devices-loaded flag was still false, or the
camera set was empty before the reply and non-empty after it. -/
theorem devices_ready_exact_rule (s : ServerState) (r : CamerasReply) :
    Event.devicesReady ∈ (updateCamerasReply s r).2 ↔
      (reconcileSuccess r = true ∧
        (s.devicesLoaded = false ∨
          (s.cameras = [] ∧ (updateCamerasReply s r).1.cameras ≠ []))) := by
  have hnotP : ∀ idSet cams evs,
      Event.devicesReady ∈ (processEntries r.entries idSet cams (evs : List Event)).events →
      Event.devicesReady ∈ evs := by
    intro idSet cams evs hmem
    rcases processEntries_events_mem r.entries idSet cams evs _ hmem with h' | h' | h'
    · exact h'
    · obtain ⟨d, hd⟩ := h'
      cases hd
    · obtain ⟨d, hd⟩ := h'
      cases hd
  rcases Bool.eq_false_or_eq_true (reconcileSuccess r) with hsucc | hsucc
  · rw [updateCamerasReply_success_events s r hsucc,
      updateCamerasReply_success_cameras s r hsucc]
    simp only [List.mem_append]
    constructor
    · rintro ((hmem | hmem) | hmem)
      · exact absurd (hnotP _ _ _ hmem) (List.not_mem_nil _)
      · rw [removePhase_snd] at hmem
        obtain ⟨d, _, hd⟩ := List.mem_map.mp hmem
        cases hd
      · rcases Bool.eq_false_or_eq_true (!s.devicesLoaded ||
            (s.cameras.isEmpty &&
              !(removePhase (processEntries r.entries [] s.cameras []).cams
                  (processEntries r.entries [] s.cameras []).idSet).1.isEmpty)) with hb | hb
        · refine ⟨hsucc, ?_⟩
          simp only [Bool.or_eq_true, Bool.and_eq_true, Bool.not_eq_true',
            List.isEmpty_iff, List.isEmpty_eq_false] at hb
          exact hb
        · rw [hb] at hmem
          simp at hmem
    · rintro ⟨_, hcond⟩
      have hb : (!s.devicesLoaded ||
          (s.cameras.isEmpty &&
            !(removePhase (processEntries r.entries [] s.cameras []).cams
                (processEntries r.entries [] s.cameras []).idSet).1.isEmpty)) = true := by
        simp only [Bool.or_eq_true, Bool.and_eq_true, Bool.not_eq_true',
          List.isEmpty_iff, List.isEmpty_eq_false]
        exact hcond
      rw [hb]
      simp
  · simp only [hsucc, Bool.false_eq_true, false_and, iff_false]
    have hparts := hsucc
    rw [reconcileSuccess] at hparts
    intro hmem
    rcases Bool.eq_false_or_eq_true r.transportError with htr | htr
    · rw [updateCamerasReply, if_pos htr] at hmem
      exact List.not_mem_nil _ hmem
    · rcases Bool.eq_false_or_eq_true r.hasDevices with hhd | hhd
      · have hbad : r.entries.all entryOk = false := by
          rcases Bool.eq_false_or_eq_true (r.entries.all entryOk) with hb | hb
          · rw [htr, hhd, hb] at hparts
            simp at hparts
          · exact hb
        have herr : (processEntries r.entries [] s.cameras []).err = true := by
          rw [processEntries_err, hbad]
          rfl
        rw [updateCamerasReply, if_neg (by rw [htr]; exact Bool.false_ne_true),
          if_neg (by rw [hhd]; exact (by decide : ¬(!true) = true))] at hmem
        dsimp only at hmem
        rw [if_pos herr] at hmem
        exact List.not_mem_nil _ (hnotP _ _ _ hmem)
      · rw [updateCamerasReply, if_neg (by rw [htr]; exact Bool.false_ne_true),
          if_pos (by rw [hhd]; rfl)] at hmem
        exact List.not_mem_nil _ hmem

/-- C5 counterexample: with the refresh timer running and the session no
longer online, the disconnect handler completes with the timer still
running — `disconnected()` never touches the timer, so "the timer is not
running once the disconnect handler has completed" fails. -/
theorem disconnect_leaves_timer_running :
    (disconnectedHandler ⟨[], false, "", true, false⟩).1.timerActive = true ∧
    (disconnectedHandler ⟨[], false, "", true, false⟩).1.online = false :=
  ⟨rfl, rfl⟩

/-- C5 amended: the disconnect handler leaves the refresh timer untouched;
the timer-iff-online invariant is only re-established by the next
`updateCameras` invocation, after which the timer is active exactly when
the session is online. -/
theorem timer_matches_online_after_poll (s : ServerState) :
    (updateCameras s).timerActive = s.online ∧
    (disconnectedHandler s).1.timerActive = s.timerActive := by
  obtain ⟨cams, dl, msg, ta, onl⟩ := s
  cases onl <;> cases ta <;> simp [updateCameras, disconnectedHandler]

/-- C7 counterexample: with an already-empty alert message, the disconnect
handler still emits `statusAlertMessageChanged` although the stored value
did not change. -/
theorem disconnect_emits_unchanged_alert :
    (⟨[], false, "", false, false⟩ : ServerState).statusAlertMessage = "" ∧
    (disconnectedHandler ⟨[], false, "", false, false⟩).1.statusAlertMessage = "" ∧
    (disconnectedHandler ⟨[], false, "", false, false⟩).2 =
      [Event.statusAlertMessageChanged ""] :=
  ⟨rfl, rfl, rfl⟩

/-- C7 amended: the stats-reply path deduplicates — a notification is
emitted exactly when the derived message differs from the stored alert, so
two consecutive stats replies with the same derived message produce exactly
one notification — but the disconnect handler emits unconditionally. -/
theorem stats_alert_dedup_amended (s : ServerState) (r1 r2 : StatsReply)
    (hsame : deriveStatsMessage r1 = deriveStatsMessage r2)
    (hdiff : deriveStatsMessage r1 ≠ s.statusAlertMessage) :
    (updateStatsReply s r1).2 =
      [Event.statusAlertMessageChanged (deriveStatsMessage r1)] ∧
    (updateStatsReply (updateStatsReply s r1).1 r2).2 = [] ∧
    Event.statusAlertMessageChanged "" ∈ (disconnectedHandler s).2 := by
  have h1 : updateStatsReply s r1 =
      ({ s with statusAlertMessage := deriveStatsMessage r1 },
        [Event.statusAlertMessageChanged (deriveStatsMessage r1)]) := by
    rw [updateStatsReply]
    rw [if_pos hdiff]
  refine ⟨by rw [h1], ?_, ?_⟩
  · rw [h1, updateStatsReply]
    rw [if_neg ?hcond]
    case hcond =>
      intro hcontra
      exact hcontra hsame.symm
  · exact List.mem_append_right _ (List.mem_singleton.mpr rfl)

/-- Witness for C7's amended theorem: two identical error replies against
an empty alert produce exactly one notification. -/
theorem stats_alert_dedup_amended_witness :
    (updateStatsReply ⟨[], false, "", false, false⟩ ⟨some "E", none⟩).2 =
      [Event.statusAlertMessageChanged (deriveStatsMessage ⟨some "E", none⟩)] ∧
    (updateStatsReply (updateStatsReply ⟨[], false, "", false, false⟩
        ⟨some "E", none⟩).1 ⟨some "E", none⟩).2 = [] ∧
    Event.statusAlertMessageChanged "" ∈
      (disconnectedHandler ⟨[], false, "", false, false⟩).2 :=
  stats_alert_dedup_amended ⟨[], false, "", false, false⟩ ⟨some "E", none⟩
    ⟨some "E", none⟩ rfl (by decide)

/-- Whether a stats child is a `message` element. -/
def isMessageChild : StatsChild → Bool
  | StatsChild.message _ => true
  | _ => false

/-- Whether a stats child is a `message` element with non-empty text. -/
def isNonEmptyMessage : StatsChild → Bool
  | StatsChild.message t => !t.isEmpty
  | _ => false

theorem processStatsChildren_append (xs ys : List StatsChild) :
    ∀ (msg : String) (had : Bool),
    processStatsChildren (xs ++ ys) msg had =
      processStatsChildren ys (processStatsChildren xs msg had).1
        (processStatsChildren xs msg had).2 := by
  induction xs with
  | nil => intro msg had; rfl
  | cons c rest ih =>
    intro msg had
    cases c with
    | message t => simp only [List.cons_append, processStatsChildren]; exact ih _ _
    | serverRunning t => simp only [List.cons_append, processStatsChildren]; exact ih _ _
    | other => simp only [List.cons_append, processStatsChildren]; exact ih _ _

theorem processStatsChildren_had (xs : List StatsChild) :
    ∀ (msg : String) (had : Bool),
    (processStatsChildren xs msg had).2 = (had || xs.any isMessageChild) := by
  induction xs with
  | nil => intro msg had; simp [processStatsChildren]
  | cons c rest ih =>
    intro msg had
    cases c with
    | message t => simp [processStatsChildren, isMessageChild, ih]
    | serverRunning t => simp [processStatsChildren, isMessageChild, ih]
    | other => simp [processStatsChildren, isMessageChild, ih]

theorem processStatsChildren_keeps_down (xs : List StatsChild)
    (hpost : ∀ c ∈ xs, isNonEmptyMessage c = false) :
    ∀ (had : Bool),
    (processStatsChildren xs "Server process stopped" had).1 =
      "Server process stopped" := by
  induction xs with
  | nil => intro had; rfl
  | cons c rest ih =>
    intro had
    have hrest : ∀ c ∈ rest, isNonEmptyMessage c = false := fun c hc =>
      hpost c (List.mem_cons_of_mem _ hc)
    cases c with
    | message t =>
      have ht : t.isEmpty = true := by
        have := hpost (StatsChild.message t) (List.mem_cons_self _ _)
        rwa [isNonEmptyMessage, Bool.not_eq_false'] at this
      rw [processStatsChildren, if_pos ht]
      exact ih hrest _
    | serverRunning t =>
      rw [processStatsChildren]
      by_cases hd : qTrimmed t = "down"
      · rw [if_pos hd]
        exact ih hrest _
      · rw [if_neg hd]
        exact ih hrest _
    | other =>
      rw [processStatsChildren]
      exact ih hrest _

/-- C6 counterexample: for a stats reply
`<stats><bc-server-running>down</bc-server-running><message>OK</message></stats>`
the derived message is `"OK"`, not `"Server process stopped"`: a later
non-empty `message` element overwrites the forced value. -/
theorem later_message_overrides_down :
    deriveStatsMessage ⟨none,
        some [StatsChild.serverRunning "down", StatsChild.message "OK"]⟩ = "OK" ∧
    deriveStatsMessage ⟨none,
        some [StatsChild.serverRunning "down", StatsChild.message "OK"]⟩ ≠
      "Server process stopped" := by
  refine ⟨by decide, by decide⟩

/-- C6 amended: a `bc-server-running` child with trimmed text `"down"`
forces the message to `"Server process stopped"`, overriding `message`
values seen before it, provided no `message` element with non-empty text
occurs after it (and some `message` element occurs in the reply, so that
the missing-message error does not take over). -/
theorem server_down_message_amended (pre post : List StatsChild)
    (hmsg : (pre ++ post).any isMessageChild = true)
    (hpost : ∀ c ∈ post, isNonEmptyMessage c = false) :
    deriveStatsMessage ⟨none, some (pre ++ StatsChild.serverRunning "down" :: post)⟩ =
      "Server process stopped" := by
  rw [deriveStatsMessage]
  dsimp only
  rw [processStatsChildren_append pre (StatsChild.serverRunning "down" :: post)]
  rw [processStatsChildren, if_pos (by decide : qTrimmed "down" = "down")]
  have hfst := processStatsChildren_keeps_down post hpost
    (processStatsChildren pre "" false).2
  have hsnd : (processStatsChildren post "Server process stopped"
      (processStatsChildren pre "" false).2).2 = true := by
    rw [processStatsChildren_had, processStatsChildren_had]
    rw [List.any_append] at hmsg
    rcases Bool.or_eq_true _ _ |>.mp hmsg with hb | hb <;> simp [hb]
  rw [if_pos hsnd, hfst]

/-- Witness for C6's amended theorem: the spec's own scenario, a `message`
element `"OK"` before the `bc-server-running` `"down"` element. -/
theorem server_down_message_amended_witness :
    deriveStatsMessage ⟨none, some ([StatsChild.message "OK"] ++
        StatsChild.serverRunning "down" :: [])⟩ = "Server process stopped" :=
  server_down_message_amended [StatsChild.message "OK"] [] (by decide)
    (fun c hc => absurd hc (List.not_mem_nil c))

theorem processEntries_skip_null (pre post : List DeviceEntry) (b : Bool) :
    ∀ (idSet cams : List Int) (evs : List Event),
    processEntries (pre ++ ⟨none, b⟩ :: post) idSet cams evs =
      processEntries (pre ++ post) idSet cams evs := by
  induction pre with
  | nil =>
    intro idSet cams evs
    simp only [List.nil_append]
    rfl
  | cons e rest ih =>
    intro idSet cams evs
    simp only [List.cons_append]
    cases he : e.idAttr with
    | none =>
      simp only [processEntries, he]
      exact ih _ _ _
    | some str =>
      cases hp : parseUIntStr str with
      | none => simp only [processEntries, he, hp]
      | some n =>
        cases hf : e.fieldsOk with
        | false => simp only [processEntries, he, hp, hf, Bool.false_eq_true, if_false]
        | true =>
          simp only [processEntries, he, hp, hf, if_true]
          by_cases hc : toInt32 n ∈ cams
          · rw [if_pos hc, if_pos hc]
            exact ih _ _ _
          · rw [if_neg hc, if_neg hc]
            exact ih _ _ _

theorem processEntries_abort (pre post : List DeviceEntry) (e : DeviceEntry)
    (hbad : entryOk e = false) :
    ∀ (idSet cams : List Int) (evs : List Event),
    processEntries (pre ++ e :: post) idSet cams evs =
      processEntries (pre ++ [e]) idSet cams evs := by
  induction pre with
  | nil =>
    intro idSet cams evs
    simp only [List.nil_append]
    cases he : e.idAttr with
    | none => simp [entryOk, he] at hbad
    | some str =>
      cases hp : parseUIntStr str with
      | none => simp only [processEntries, he, hp]
      | some n =>
        have hf : e.fieldsOk = false := by
          simpa [entryOk, he, hp] using hbad
        simp only [processEntries, he, hp, hf, Bool.false_eq_true, if_false]
  | cons e rest ih =>
    intro idSet cams evs
    simp only [List.cons_append]
    cases he : e.idAttr with
    | none =>
      simp only [processEntries, he]
      exact ih _ _ _
    | some str' =>
      cases hp : parseUIntStr str' with
      | none => simp only [processEntries, he, hp]
      | some n =>
        cases hf : e.fieldsOk with
        | false => simp only [processEntries, he, hp, hf, Bool.false_eq_true, if_false]
        | true =>
          simp only [processEntries, he, hp, hf, if_true]
          by_cases hc : toInt32 n ∈ cams
          · rw [if_pos hc, if_pos hc]
            exact ih _ _ _
          · rw [if_neg hc, if_neg hc]
            exact ih _ _ _

/-- C4 counterexample: starting from an empty camera set, for the reply
`<devices><device id="x"/><device id="2"/></devices>` the unparseable id
raises a stream error that terminates processing — the sibling entry with
id 2 is not added and no event is emitted; likewise for
`<devices><device id="1">…bad fields…</device><device id="2"/></devices>`
the field-parse failure of entry 1 terminates processing — the sibling with
id 2 is again not added.  Both contradict "that entry alone is skipped and
all sibling device entries in the same reply are still fully processed". -/
theorem invalid_id_aborts_reply :
    (updateCamerasReply ⟨[], false, "", false, true⟩
        ⟨false, true, [⟨some "x", true⟩, ⟨some "2", true⟩]⟩).1.cameras = [] ∧
    (updateCamerasReply ⟨[], false, "", false, true⟩
        ⟨false, true, [⟨some "x", true⟩, ⟨some "2", true⟩]⟩).2 = [] ∧
    (updateCamerasReply ⟨[], false, "", false, true⟩
        ⟨false, true, [⟨some "1", false⟩, ⟨some "2", true⟩]⟩).1.cameras = [] ∧
    (updateCamerasReply ⟨[], false, "", false, true⟩
        ⟨false, true, [⟨some "1", false⟩, ⟨some "2", true⟩]⟩).2 =
      [Event.cameraSetOnline 1 true] := by
  decide

/-- C4 amended: an entry whose id attribute is absent (null) is skipped
with all siblings still processed; but an entry that raises a stream error
— one with a non-parseable id, or one whose remaining fields fail to parse
(exactly the entries with `entryOk` false) — aborts the reply: the result
is as if the reply ended at that entry (later siblings are ignored), and
the error flag is set, so the removal phase and the `devicesReady` check
are skipped. -/
theorem entry_error_handling_amended (s : ServerState) (tr hd b : Bool)
    (e : DeviceEntry) (pre post : List DeviceEntry)
    (hbad : entryOk e = false) :
    updateCamerasReply s ⟨tr, hd, pre ++ ⟨none, b⟩ :: post⟩ =
      updateCamerasReply s ⟨tr, hd, pre ++ post⟩ ∧
    updateCamerasReply s ⟨tr, hd, pre ++ e :: post⟩ =
      updateCamerasReply s ⟨tr, hd, pre ++ [e]⟩ ∧
    (processEntries (pre ++ e :: post) [] s.cameras []).err = true := by
  refine ⟨?_, ?_, ?_⟩
  · rw [updateCamerasReply, updateCamerasReply]
    dsimp only
    rw [processEntries_skip_null]
  · rw [updateCamerasReply, updateCamerasReply]
    dsimp only
    rw [processEntries_abort pre post e hbad]
  · rw [processEntries_err]
    simp [hbad]

/-- Witness for C4's amended theorem at a field-parse-failure entry
(id parses as 1, `DVRCamera::parseXML` fails). -/
theorem entry_error_handling_amended_witness :
    updateCamerasReply ⟨[], false, "", false, true⟩
        ⟨false, true, [] ++ ⟨none, true⟩ :: [⟨some "2", true⟩]⟩ =
      updateCamerasReply ⟨[], false, "", false, true⟩
        ⟨false, true, [] ++ [⟨some "2", true⟩]⟩ ∧
    updateCamerasReply ⟨[], false, "", false, true⟩
        ⟨false, true, [] ++ ⟨some "1", false⟩ :: [⟨some "2", true⟩]⟩ =
      updateCamerasReply ⟨[], false, "", false, true⟩
        ⟨false, true, [] ++ [⟨some "1", false⟩]⟩ ∧
    (processEntries ([] ++ (⟨some "1", false⟩ : DeviceEntry) :: [⟨some "2", true⟩])
        [] (⟨[], false, "", false, true⟩ : ServerState).cameras []).err = true :=
  entry_error_handling_amended ⟨[], false, "", false, true⟩ false true true
    ⟨some "1", false⟩ [] [⟨some "2", true⟩] (by decide)

/-- C8 counterexample: with cameras {1,2} and a reply listing only id 2,
the emitted trace is `[cameraSetOnline 2 true, cameraRemoved 1]`: camera 1
is removed and notified but never set offline — in particular not before
its removal notification, contradicting "marked offline before its removal
notification is emitted". -/
theorem removal_without_offline_event :
    (updateCamerasReply ⟨[1, 2], true, "", true, true⟩
        ⟨false, true, [⟨some "2", true⟩]⟩).2 =
      [Event.cameraSetOnline 2 true, Event.cameraRemoved 1] ∧
    Event.cameraSetOnline 1 false ∉
      (updateCamerasReply ⟨[1, 2], true, "", true, true⟩
        ⟨false, true, [⟨some "2", true⟩]⟩).2 := by
  decide

/-- C8 amended: on a successful reconciliation, each existing camera whose
unique id is absent from the observed id set is removed from the camera
set and receives exactly one `cameraRemoved` notification (no offline
marking precedes the notification; the camera's `removed()` cleanup runs
after it).  In particular, replies {1,2} then {2} yield exactly one
`cameraRemoved` for id 1 and no duplicate `cameraAdded` for id 2. -/
theorem removal_notification_amended (s : ServerState) (r : CamerasReply)
    (h : reconcileSuccess r = true) (hnd : s.cameras.Nodup)
    (c : Int) (hc : c ∈ s.cameras) (hobs : c ∉ replyObservedIds r) :
    c ∉ (updateCamerasReply s r).1.cameras ∧
    (updateCamerasReply s r).2.count (Event.cameraRemoved c) = 1 := by
  obtain ⟨_, _, h3⟩ := reconcileSuccess_parts h
  refine ⟨fun hcontra => hobs ((mem_cameras_after_success s r h c).mp hcontra), ?_⟩
  rw [updateCamerasReply_success_events s r h]
  rw [List.count_append, List.count_append]
  have hcnt0 : (processEntries r.entries [] s.cameras []).events.count
      (Event.cameraRemoved c) = 0 := by
    rw [List.count_eq_zero]
    intro hmem
    rcases processEntries_events_mem r.entries [] s.cameras [] _ hmem with h' | h' | h'
    · exact List.not_mem_nil _ h'
    · obtain ⟨d, hd⟩ := h'
      cases hd
    · obtain ⟨d, hd⟩ := h'
      cases hd
  have hcntIte : (if !s.devicesLoaded ||
      (s.cameras.isEmpty &&
        !(removePhase (processEntries r.entries [] s.cameras []).cams
            (processEntries r.entries [] s.cameras []).idSet).1.isEmpty)
      then [Event.devicesReady] else []).count (Event.cameraRemoved c) = 0 := by
    split
    · rw [List.count_eq_zero]
      intro hmem
      cases List.mem_singleton.mp hmem
    · rfl
  have hnotid : c ∉ (processEntries r.entries [] s.cameras []).idSet := by
    intro hcontra
    rcases ((processEntries_mem r.entries [] s.cameras [] h3 c).1).mp hcontra with h' | h'
    · exact List.not_mem_nil _ h'
    · exact hobs h'
  have hinj : Function.Injective Event.cameraRemoved := fun a b hab => by
    injection hab
  have hcntrm : (removePhase (processEntries r.entries [] s.cameras []).cams
      (processEntries r.entries [] s.cameras []).idSet).2.count
      (Event.cameraRemoved c) = 1 := by
    rw [removePhase_snd, List.count_map_of_injective _ _ hinj,
      List.count_filter (by simpa using hnotid)]
    obtain ⟨t, ht, hmemt⟩ := processEntries_cams_struct r.entries [] s.cameras []
    rw [ht, List.count_append]
    have h1 : s.cameras.count c = 1 := List.count_eq_one_of_mem hnd hc
    have h0 : t.count c = 0 := by
      rw [List.count_eq_zero]
      intro hcontra
      exact hobs (hmemt c hcontra)
    rw [h1, h0]
  rw [hcnt0, hcntIte, hcntrm]

/-- Witness for C8's amended theorem: cameras {1,2}, reply listing only
id 2, camera with id 1. -/
theorem removal_notification_amended_witness :
    (1 : Int) ∉ (updateCamerasReply ⟨[1, 2], true, "", true, true⟩
        ⟨false, true, [⟨some "2", true⟩]⟩).1.cameras ∧
    (updateCamerasReply ⟨[1, 2], true, "", true, true⟩
        ⟨false, true, [⟨some "2", true⟩]⟩).2.count (Event.cameraRemoved 1) = 1 :=
  removal_notification_amended ⟨[1, 2], true, "", true, true⟩
    ⟨false, true, [⟨some "2", true⟩]⟩ (by decide) (by decide) 1 (by decide) (by decide)

end DVRServer
